import Mathlib

/-!
Shallow embedding of `src/feature_engineering.py` (class `FantasyFeatureEngineer`)
from the yahoo-nba-fantasy-draft repository, together with theorems settling the
frozen claims about it.

Modelling conventions:
* pandas/NumPy floating-point values are modelled by exact rationals `ℚ`;
* the one inherently irrational operation, the square root taken by `np.std`
  and `pandas.Series.std`, is passed in as an explicit function argument
  `sq : ℚ → ℚ`, so every definition stays computable and every statement is
  quantified over the square-root oracle;
* a Python dict is modelled by a structure whose fields are `Option`-valued
  exactly where the source emits the key on some paths and not on others;
* `NaN`/missing scalar values are `Option.none`; a missing DataFrame column is
  an `Option.none` column or an explicit `Bool` presence flag, matching the
  `'col' in df.columns` tests in the source;
* `DataFrame.sort_values` is modelled by `List.insertionSort` on the sort key;
* fallible library calls (the `sklearn` `LinearRegression` fit) are modelled by
  an `Except`-returning function argument, and the embedding propagates or
  handles failure exactly where the source does (the source has no
  try/except around the fit).
-/

namespace FantasyFE

/-- Mean of a list of rationals, as computed by `np.mean` (sum divided by
length; `0/0 = 0` for the empty list, which the source never hits on the
paths we verify). -/
def npMean (l : List ℚ) : ℚ := l.sum / (l.length : ℚ)

/-- Population variance as computed inside `np.std` (mean of squared
deviations from the mean, divisor `n`). `np.std` is `sq ∘ npVariance` for a
square-root oracle `sq`. -/
def npVariance (l : List ℚ) : ℚ :=
  ((l.map (fun x => (x - npMean l) ^ 2)).sum) / (l.length : ℚ)

/-- The list sorted ascending, as `np.percentile`/`np.median` sort their
input. For a list of plain numbers every correct sort returns the same
list, so insertion sort is a faithful model of NumPy's sort. -/
def sortedVals (l : List ℚ) : List ℚ := List.insertionSort (· ≤ ·) l

/-- Linear-interpolation percentile, the default method of `np.percentile`:
position `q/100 * (n-1)` in the sorted list, interpolating between the two
neighbouring order statistics. -/
def percentile (l : List ℚ) (q : ℚ) : ℚ :=
  let s := sortedVals l
  let n := l.length
  if n = 0 then 0
  else
    let pos : ℚ := q * ((n : ℚ) - 1) / 100
    let i : ℕ := (⌊pos⌋).toNat
    let lo := s.getD i 0
    let hi := s.getD (i + 1) lo
    lo + (pos - (⌊pos⌋ : ℚ)) * (hi - lo)

/-- Median as computed by `np.median`: middle order statistic for odd length,
average of the two middle order statistics for even length. -/
def npMedian (l : List ℚ) : ℚ :=
  let s := sortedVals l
  let n := l.length
  if n = 0 then 0
  else if n % 2 = 1 then s.getD (n / 2) 0
  else (s.getD (n / 2 - 1) 0 + s.getD (n / 2) 0) / 2

/-- The dict returned by `calculate_consistency_metrics`. The degenerate
(short-sample) branch of the source emits neither a `median_fp` key nor a
`games_played` key, so those two fields are `Option`-valued: `none` models
key-absent. -/
structure ConsMetrics where
  consistency_score : ℚ
  floor : ℚ
  ceiling : ℚ
  avg_fp : ℚ
  median_fp : Option ℚ
  std_fp : ℚ
  coef_variation : ℚ
  iqr_ratio : ℚ
  games_played : Option ℕ
deriving DecidableEq

/-- Embedding of `FantasyFeatureEngineer.calculate_consistency_metrics`.
`sq` is the square-root oracle standing for the `np.sqrt` inside `np.std`;
`player_games` is the `fantasy_points` column of the grouped frame;
`min_games` defaults to 10 at every call site of the source. -/
def calculate_consistency_metrics (sq : ℚ → ℚ) (player_games : List ℚ)
    (min_games : ℕ) : ConsMetrics :=
  if player_games.length < min_games then
    { consistency_score := 0
      floor := 0
      ceiling := 0
      avg_fp := 0
      median_fp := none
      std_fp := 0
      coef_variation := 0
      iqr_ratio := 0
      games_played := none }
  else
    let fp := player_games
    let avg_fp := npMean fp
    let std_fp := sq (npVariance fp)
    let coef_var := if avg_fp > 0 then std_fp / avg_fp else 0
    let floor := percentile fp 10
    let ceiling := percentile fp 90
    let median := npMedian fp
    let q75 := percentile fp 75
    let q25 := percentile fp 25
    let iqr := q75 - q25
    let iqr_ratio := if median > 0 then iqr / median else 0
    let consistency_score := avg_fp * 0.5 + floor * 0.3 - coef_var * avg_fp * 0.2
    { consistency_score := consistency_score
      floor := floor
      ceiling := ceiling
      avg_fp := avg_fp
      median_fp := some median
      std_fp := std_fp
      coef_variation := coef_var
      iqr_ratio := iqr_ratio
      games_played := some fp.length }

/-- Embedding of `FantasyFeatureEngineer.calculate_age_adjustment`.
`none` models a `NaN` age (`pd.isna(age)`). -/
def calculate_age_adjustment (age : Option ℚ) : ℚ :=
  match age with
  | none => 1.0
  | some a =>
    if a < 23 then 0.95 + (a - 20) * 0.025
    else if 23 ≤ a ∧ a ≤ 29 then 1.0
    else if 30 ≤ a ∧ a ≤ 33 then 1.0 - (a - 29) * 0.03
    else 0.88 - (a - 33) * 0.05

/-- One row of the per-player frame handed to
`create_optimized_moving_averages`: its `date` (any linearly ordered
timestamp, modelled by `ℚ`) and the value of the selected `feature_col`. -/
structure GameRow where
  date : ℚ
  value : ℚ
deriving DecidableEq

instance : IsTotal GameRow (fun a b => a.date ≤ b.date) :=
  ⟨fun a b => le_total a.date b.date⟩

instance : IsTrans GameRow (fun a b => a.date ≤ b.date) :=
  ⟨fun _ _ _ hab hbc => le_trans hab hbc⟩

/-- The frame sorted ascending by `date`, as `sort_values('date')` does. -/
def sortByDate (l : List GameRow) : List GameRow :=
  List.insertionSort (fun a b => a.date ≤ b.date) l

/-- Tail of the exponential moving average recurrence
`e_t = alpha * x_t + (1 - alpha) * e_(t-1)` started from `prev`. -/
def emaFrom (alpha : ℚ) (prev : ℚ) : List ℚ → List ℚ
  | [] => []
  | x :: xs =>
    (alpha * x + (1 - alpha) * prev) :: emaFrom alpha (alpha * x + (1 - alpha) * prev) xs

/-- `Series.ewm(span=L, adjust=False).mean()`: `ema[0] = x[0]`,
`ema[t] = alpha * x[t] + (1 - alpha) * ema[t-1]`. The caller passes
`alpha = 2 / (L + 1)`. -/
def ewmMean (alpha : ℚ) : List ℚ → List ℚ
  | [] => []
  | x :: xs => x :: emaFrom alpha x xs

/-- The `L` lag features of row `t` over the date-sorted value column
`vals`: `lag_j = vals[t - j]` for `j = 1..L`, and `0` where the shift runs
off the start of the column (`fillna(0)`). -/
def lagRow (look_back : ℕ) (vals : List ℚ) (t : ℕ) : List ℚ :=
  (List.range look_back).map (fun j => if j + 1 ≤ t then vals.getD (t - (j + 1)) 0 else 0)

/-- Embedding of `FantasyFeatureEngineer.create_optimized_moving_averages`.
`fit` models `LinearRegression.fit` followed by `predict`: given the
training design matrix and targets it either returns a fitted prediction
function or fails; the source wraps the fit in no try/except, so a failure
propagates out of the embedding as `Except.error`. A `date` column is
always present in this model, so the `'date' in player_games.columns`
test of the source is `True`. -/
def create_optimized_moving_averages
    (fit : List (List ℚ) → List ℚ → Except Unit (List ℚ → ℚ))
    (player_games : List GameRow) (look_back : ℕ) (train_cutoff_date : ℚ) :
    Except Unit (List ℚ) :=
  if player_games.length < look_back then
    Except.ok (List.replicate player_games.length 0)
  else
    let rows := sortByDate player_games
    let vals := rows.map GameRow.value
    let lag_features := (List.range rows.length).map (lagRow look_back vals)
    if look_back < (rows.filter (fun r => r.date < train_cutoff_date)).length then
      let train := ((List.range rows.length).zip rows).filter
        (fun p => p.2.date < train_cutoff_date)
      let X_train := train.map (fun p => lagRow look_back vals p.1)
      let y_train := train.map (fun p => p.2.value)
      match fit X_train y_train with
      | Except.ok w => Except.ok (lag_features.map w)
      | Except.error e => Except.error e
    else
      Except.ok (ewmMean (2 / ((look_back : ℚ) + 1)) vals)

/-- Sample variance with divisor `n - 1`, as inside `pandas.Series.std`
(default `ddof=1`); `Series.std` is `sq ∘ sampleVariance`. On the one path
that uses it the source guarantees `n ≥ 6`. -/
def sampleVariance (l : List ℚ) : ℚ :=
  ((l.map (fun x => (x - npMean l) ^ 2)).sum) / ((l.length : ℚ) - 1)

/-- The `recent_games` frame seen by `calculate_injury_risk_score`:
its row count and, when the `seconds_played` column exists, that column. -/
structure RecentGames where
  numRows : ℕ
  seconds_played : Option (List ℚ)
deriving DecidableEq

/-- Embedding of `FantasyFeatureEngineer.calculate_injury_risk_score`.
`injury_data` is the optional injury frame reduced to its `player_name`
column (`none` models `injury_df=None`); `sq` is the square-root oracle
inside `Series.std`. -/
def calculate_injury_risk_score (sq : ℚ → ℚ) (injury_data : Option (List String))
    (player_name : String) (recent_games : RecentGames) : ℚ :=
  let games_played := recent_games.numRows
  let expected_games : ℚ := 82
  let risk1 : ℚ :=
    if (games_played : ℚ) < expected_games * 0.7 then 30
    else if (games_played : ℚ) < expected_games * 0.85 then 15
    else 0
  let risk2 : ℚ :=
    match recent_games.seconds_played with
    | none => risk1
    | some secs =>
      let minutes := secs.map (fun s => s / 60)
      if 5 < minutes.length then
        let minutes_std := sq (sampleVariance minutes)
        let minutes_mean := npMean minutes
        if 0 < minutes_mean then
          risk1 + min 20 ((minutes_std / minutes_mean) * 50)
        else risk1
      else risk1
  let risk3 : ℚ :=
    match injury_data with
    | none => risk2
    | some inj =>
      if inj.isEmpty then risk2
      else
        let player_injuries := inj.filter (fun n => n = player_name)
        if 0 < player_injuries.length then
          risk2 + min 30 ((player_injuries.length : ℚ) * 10)
        else risk2
  let risk4 : ℚ := if games_played < 60 then risk3 + 20 else risk3
  min 100 risk4

/-- One row of the per-player game-log frame as the orchestrator
`create_all_features` sees it for the age feature: the `date` sort key and
the `age` cell (`none` models a `NaN` cell). -/
structure LogRow where
  date : ℚ
  age : Option ℚ
deriving DecidableEq

instance : IsTotal LogRow (fun a b => a.date ≤ b.date) :=
  ⟨fun a b => le_total a.date b.date⟩

instance : IsTrans LogRow (fun a b => a.date ≤ b.date) :=
  ⟨fun _ _ _ hab hbc => le_trans hab hbc⟩

/-- The player's games sorted by `date`, as line 239 of the source does
before any per-player feature is computed. -/
def sortPlayerGames (l : List LogRow) : List LogRow :=
  List.insertionSort (fun a b => a.date ≤ b.date) l

/-- The age value the orchestrator feeds to `calculate_age_adjustment`:
`player_games['age'].iloc[-1] if 'age' in player_games.columns else 27`
on the date-sorted frame. `ageColPresent` models the column-presence test. -/
def orchestrator_age (ageColPresent : Bool) (player_games : List LogRow) : Option ℚ :=
  if ageColPresent then
    match (sortPlayerGames player_games).getLast? with
    | some r => r.age
    | none => none
  else some 27

/-- The `age_adjustment` feature the orchestrator stores for the player:
`calculate_age_adjustment(age)` applied to `orchestrator_age`. -/
def orchestrator_age_adjustment (ageColPresent : Bool) (player_games : List LogRow) : ℚ :=
  calculate_age_adjustment (orchestrator_age ageColPresent player_games)

/-- One row of the `standings` frame as `add_team_context` reads it. -/
structure Standing where
  team : String
  season_end_year : ℤ
  is_contender : Bool
deriving DecidableEq

/-- One row of `game_logs` as `add_team_context` reads it: the `team` and
`season_end_year` cells, `none` modelling a missing value so that
`row.get('team', '')` / `row.get('season_end_year', 2025)` apply their
defaults. -/
structure PlayerRow where
  team : Option String
  season_end_year : Option ℤ
deriving DecidableEq

/-- `standings.set_index(['Team', 'season_end_year'])['is_contender'].to_dict()`
followed by `.get(key, True)` at one key: the dict keeps the value of the
last standings row with that key, and the lookup is `none` when no row
matches. -/
def team_mapping_lookup (standings : List Standing) (team : String)
    (season_end_year : ℤ) : Option Bool :=
  (standings.reverse.find?
    (fun s => s.team = team ∧ s.season_end_year = season_end_year)).map
    Standing.is_contender

/-- Embedding of `FantasyFeatureEngineer.add_team_context`, returning the
`is_contender` column it writes onto `game_logs`, one entry per row.
`standings = none` models `standings_df=None`; an empty list models an
empty frame (`self.standings.empty`). -/
def add_team_context (standings : Option (List Standing))
    (game_logs : List PlayerRow) : List Bool :=
  match standings with
  | none => game_logs.map (fun _ => true)
  | some s =>
    if s.isEmpty then game_logs.map (fun _ => true)
    else
      game_logs.map (fun row =>
        (team_mapping_lookup s (row.team.getD "") (row.season_end_year.getD 2025)).getD true)

/-- A fit oracle that always fails, modelling an `lr.fit` call that raises
(for example `ValueError` on a non-finite entry in the stat column). -/
def failFit : List (List ℚ) → List ℚ → Except Unit (List ℚ → ℚ) :=
  fun _ _ => Except.error ()

/-- Mapping a constant function over a list yields a replicated list. -/
lemma map_const_eq_replicate {α β : Type} (l : List α) (b : β) :
    l.map (fun _ => b) = List.replicate l.length b := by
  induction l with
  | nil => rfl
  | cons x xs ih => simp [List.replicate, ih]

/-- Reduction of `calculate_age_adjustment` on a present age. -/
lemma calculate_age_adjustment_some (a : ℚ) :
    calculate_age_adjustment (some a) =
      if a < 23 then 0.95 + (a - 20) * 0.025
      else if 23 ≤ a ∧ a ≤ 29 then 1.0
      else if 30 ≤ a ∧ a ≤ 33 then 1.0 - (a - 29) * 0.03
      else 0.88 - (a - 33) * 0.05 := rfl

section Claims

/-- C1: the claim says the short-sample degenerate record carries
`median_fp = 0` and `games_played` equal to the input length; on the input
`[5]` (length 1 < 10) the source's degenerate dict contains neither key. -/
theorem C1_counterexample :
    ¬ ((calculate_consistency_metrics id [5] 10).median_fp = some 0 ∧
       (calculate_consistency_metrics id [5] 10).games_played = some 1) := by
  decide

/-- C1 (amended): for every input shorter than `min_games`,
`calculate_consistency_metrics` returns the fixed record with
`consistency_score`, `floor`, `ceiling`, `avg_fp`, `std_fp`,
`coef_variation` and `iqr_ratio` all `0`, and with no `median_fp` and no
`games_played` entry at all. -/
theorem C1_short_sample_degenerate (sq : ℚ → ℚ) (l : List ℚ) (m : ℕ)
    (h : l.length < m) :
    calculate_consistency_metrics sq l m =
      { consistency_score := 0, floor := 0, ceiling := 0, avg_fp := 0,
        median_fp := none, std_fp := 0, coef_variation := 0, iqr_ratio := 0,
        games_played := none } := by
  unfold calculate_consistency_metrics
  rw [if_pos h]

/-- C1 witness: the degenerate theorem applied at the concrete input `[5]`
with `min_games = 10`. -/
theorem C1_witness :
    ([(5 : ℚ)].length < 10) ∧
    calculate_consistency_metrics id [5] 10 =
      { consistency_score := 0, floor := 0, ceiling := 0, avg_fp := 0,
        median_fp := none, std_fp := 0, coef_variation := 0, iqr_ratio := 0,
        games_played := none } :=
  ⟨by decide, C1_short_sample_degenerate id [5] 10 (by decide)⟩

/-- C7: `calculate_age_adjustment` implements the claimed piecewise map,
including the four quoted point values; the missing-age case maps to `1`. -/
theorem C7_age_piecewise (a : ℚ) :
    calculate_age_adjustment none = 1 ∧
    (a < 23 → calculate_age_adjustment (some a) = 0.95 + (a - 20) * 0.025) ∧
    (23 ≤ a ∧ a ≤ 29 → calculate_age_adjustment (some a) = 1) ∧
    (30 ≤ a ∧ a ≤ 33 → calculate_age_adjustment (some a) = 1 - (a - 29) * 0.03) ∧
    (33 < a → calculate_age_adjustment (some a) = 0.88 - (a - 33) * 0.05) ∧
    calculate_age_adjustment (some 27) = 1 ∧
    calculate_age_adjustment (some 20) = 0.95 ∧
    calculate_age_adjustment (some 35) = 0.78 := by
  simp only [calculate_age_adjustment_some]
  refine ⟨by norm_num [calculate_age_adjustment], ?_, ?_, ?_, ?_,
    by norm_num, by norm_num, by norm_num⟩
  · intro h
    rw [if_pos h]
  · rintro ⟨h1, h2⟩
    rw [if_neg (by linarith), if_pos ⟨h1, h2⟩]
    try norm_num
  · rintro ⟨h1, h2⟩
    rw [if_neg (by linarith), if_neg (by simp; intro; linarith), if_pos ⟨h1, h2⟩]
    try norm_num
  · intro h
    rw [if_neg (by linarith), if_neg (by simp; intro; linarith),
      if_neg (by simp; intro; linarith)]
    try norm_num

/-- C7 witness: the young-player case of the piecewise theorem applied at
age 20. -/
theorem C7_witness :
    calculate_age_adjustment (some 20) = 0.95 + ((20 : ℚ) - 20) * 0.025 :=
  (C7_age_piecewise 20).2.1 (by norm_num)

/-- C9: with no standings frame (`None`) or an empty one, `add_team_context`
sets `is_contender = true` on every player row. -/
theorem C9_no_standings_all_contender (rows : List PlayerRow) :
    add_team_context none rows = List.replicate rows.length true ∧
    add_team_context (some []) rows = List.replicate rows.length true := by
  constructor
  · unfold add_team_context
    exact map_const_eq_replicate rows true
  · unfold add_team_context
    simp [map_const_eq_replicate]

/-- C3: the source wraps `lr.fit` in no try/except, so a fit failure
propagates out of `create_optimized_moving_averages` instead of degrading
to the exponential-smoothing fallback: on two pre-cutoff rows with
`look_back = 1` (training size 2 > 1) and a failing fit, the result is the
propagated error. -/
theorem C3_fit_error_propagates :
    create_optimized_moving_averages failFit
      [{ date := 0, value := 1 }, { date := 1, value := 2 }] 1 10 =
      Except.error () := by
  rfl

/-- C2: with at least `look_back` rows and a strictly-pre-cutoff training
subset of size at most `look_back`, `create_optimized_moving_averages`
returns exactly the exponential-smoothing sequence with
`alpha = 2/(look_back+1)` over the date-sorted values, whatever the fit
oracle is. -/
theorem C2_ema_fallback (fit : List (List ℚ) → List ℚ → Except Unit (List ℚ → ℚ))
    (pg : List GameRow) (L : ℕ) (cutoff : ℚ)
    (h1 : L ≤ pg.length)
    (h2 : (pg.filter (fun r => r.date < cutoff)).length ≤ L) :
    create_optimized_moving_averages fit pg L cutoff =
      Except.ok (ewmMean (2 / ((L : ℚ) + 1)) ((sortByDate pg).map GameRow.value)) := by
  have hperm : List.Perm (sortByDate pg) pg :=
    List.perm_insertionSort (fun a b : GameRow => a.date ≤ b.date) pg
  have hlen : ((sortByDate pg).filter (fun r => r.date < cutoff)).length =
      (pg.filter (fun r => r.date < cutoff)).length :=
    (hperm.filter _).length_eq
  unfold create_optimized_moving_averages
  rw [if_neg (not_lt.mpr h1)]
  simp only [sortByDate] at hlen ⊢
  rw [if_neg (not_lt.mpr (hlen.trans_le h2))]

/-- C2 witness: the fallback theorem applied to two rows dated after the
cutoff with `look_back = 2`, where the smoothing sequence is
`[10, 2/3*20 + 1/3*10]`. -/
theorem C2_witness :
    (2 ≤ ([{ date := 5, value := 10 }, { date := 6, value := 20 }] : List GameRow).length) ∧
    ((([{ date := 5, value := 10 }, { date := 6, value := 20 }] : List GameRow).filter
      (fun r => r.date < 0)).length ≤ 2) ∧
    create_optimized_moving_averages failFit
      [{ date := 5, value := 10 }, { date := 6, value := 20 }] 2 0 =
      Except.ok (ewmMean (2 / ((2 : ℚ) + 1))
        ((sortByDate [{ date := 5, value := 10 }, { date := 6, value := 20 }]).map
          GameRow.value)) :=
  ⟨by decide, by decide,
    C2_ema_fallback failFit [{ date := 5, value := 10 }, { date := 6, value := 20 }] 2 0
      (by decide) (by decide)⟩

/-- C10: with a standings table supplied, every row whose `(team, season)`
key matches no standings row still gets `is_contender = true` (the
lookup's default), and the produced column has one entry for every row. -/
theorem C10_unmatched_key_defaults_true (s : List Standing) (rows : List PlayerRow) :
    (add_team_context (some s) rows).length = rows.length ∧
    ∀ i (hi : i < rows.length),
      (∀ st ∈ s, ¬(st.team = rows[i].team.getD "" ∧
        st.season_end_year = rows[i].season_end_year.getD 2025)) →
      (add_team_context (some s) rows).getD i false = true := by
  constructor
  · simp only [add_team_context]
    split <;> simp
  · intro i hi hnomatch
    simp only [add_team_context]
    split
    · simp [List.getD_eq_getElem?_getD, List.getElem?_map, List.getElem?_eq_getElem hi,
        List.getElem?_replicate, hi]
    · have hlook : team_mapping_lookup s (rows[i].team.getD "")
          (rows[i].season_end_year.getD 2025) = none := by
        unfold team_mapping_lookup
        rw [List.find?_eq_none.mpr ?_]
        · rfl
        · intro st hst
          simp only [decide_eq_true_eq]
          exact hnomatch st (List.mem_reverse.mp hst)
      simp [List.getD_eq_getElem?_getD, List.getElem?_map, List.getElem?_eq_getElem hi, hlook]

/-- C10 witness: a one-row frame whose team does not appear in the supplied
one-row standings table still comes out `is_contender = true`. -/
theorem C10_witness :
    (add_team_context (some [{ team := "A", season_end_year := 2025, is_contender := false }])
      [{ team := some "B", season_end_year := some 2025 }]).getD 0 false = true :=
  (C10_unmatched_key_defaults_true
    [{ team := "A", season_end_year := 2025, is_contender := false }]
    [{ team := some "B", season_end_year := some 2025 }]).2 0 (by decide) (by decide)

end Claims

/-- In a list that is pairwise-sorted by the key `f`, every element's key is
at most the key of the last element. -/
lemma pairwise_le_getLast {α : Type} (f : α → ℚ) :
    ∀ (l : List α) (h : l ≠ []), l.Pairwise (fun a b => f a ≤ f b) →
      ∀ x ∈ l, f x ≤ f (l.getLast h)
  | [], h => absurd rfl h
  | [a], _ => fun _ x hx => by
      simp only [List.mem_singleton] at hx
      subst hx
      simp [List.getLast]
  | a :: b :: t, _ => fun hp x hx => by
      rcases List.mem_cons.mp hx with rfl | hx2
      · have hhead := (List.pairwise_cons.mp hp).1
        have hmem : (b :: t).getLast (by simp) ∈ b :: t := List.getLast_mem _
        rw [List.getLast_cons (by simp : b :: t ≠ [])]
        exact hhead _ hmem
      · rw [List.getLast_cons (by simp : b :: t ≠ [])]
        exact pairwise_le_getLast f (b :: t) (by simp) (List.pairwise_cons.mp hp).2 x hx2

section ClaimsB

/-- C8: for a nonempty player frame, the orchestrator applies
`calculate_age_adjustment` to the `age` cell of the chronologically last
record of the date-sorted frame (a record whose date is maximal among the
player's records), and to `27` when the `age` column is absent. -/
theorem C8_age_from_last_record (pg : List LogRow) (h : pg ≠ []) :
    ∃ last, (sortPlayerGames pg).getLast? = some last ∧
      (∀ r ∈ pg, r.date ≤ last.date) ∧
      orchestrator_age_adjustment true pg = calculate_age_adjustment last.age ∧
      orchestrator_age_adjustment false pg = calculate_age_adjustment (some 27) := by
  have hperm : List.Perm (sortPlayerGames pg) pg :=
    List.perm_insertionSort (fun a b : LogRow => a.date ≤ b.date) pg
  have hne : sortPlayerGames pg ≠ [] := by
    intro hnil
    exact h (List.Perm.eq_nil (hnil ▸ hperm.symm))
  have hsorted : (sortPlayerGames pg).Pairwise (fun a b : LogRow => a.date ≤ b.date) :=
    List.sorted_insertionSort (fun a b : LogRow => a.date ≤ b.date) pg
  refine ⟨(sortPlayerGames pg).getLast hne,
    List.getLast?_eq_getLast_of_ne_nil hne, ?_, ?_, rfl⟩
  · intro r hr
    exact pairwise_le_getLast LogRow.date _ hne hsorted r (hperm.mem_iff.mpr hr)
  · simp [orchestrator_age_adjustment, orchestrator_age,
      List.getLast?_eq_getLast_of_ne_nil hne]

/-- C8 witness: the theorem applied to a concrete two-row frame whose later
game carries age 30. -/
theorem C8_witness :
    ∃ last, (sortPlayerGames [{ date := 1, age := some 30 }, { date := 0, age := some 25 }]).getLast? = some last ∧
      (∀ r ∈ ([{ date := 1, age := some 30 }, { date := 0, age := some 25 }] : List LogRow), r.date ≤ last.date) ∧
      orchestrator_age_adjustment true [{ date := 1, age := some 30 }, { date := 0, age := some 25 }] = calculate_age_adjustment last.age ∧
      orchestrator_age_adjustment false [{ date := 1, age := some 30 }, { date := 0, age := some 25 }] = calculate_age_adjustment (some 27) :=
  C8_age_from_last_record [{ date := 1, age := some 30 }, { date := 0, age := some 25 }]
    (by decide)

end ClaimsB

/-- Sorting is invariant under permutation of the input list. -/
lemma sortedVals_perm {l₁ l₂ : List ℚ} (h : List.Perm l₁ l₂) :
    sortedVals l₁ = sortedVals l₂ :=
  List.eq_of_perm_of_sorted
    ((List.perm_insertionSort _ l₁).trans (h.trans (List.perm_insertionSort _ l₂).symm))
    (List.sorted_insertionSort _ _) (List.sorted_insertionSort _ _)

section ClaimsC

/-- C6: `calculate_consistency_metrics` is order-independent — permuting
the input sequence yields the identical metrics record, for every
square-root oracle and every `min_games`. -/
theorem C6_perm_invariant (sq : ℚ → ℚ) (m : ℕ) (l₁ l₂ : List ℚ)
    (h : List.Perm l₁ l₂) :
    calculate_consistency_metrics sq l₁ m = calculate_consistency_metrics sq l₂ m := by
  have hlen := h.length_eq
  have hsort : sortedVals l₁ = sortedVals l₂ := sortedVals_perm h
  have hmean : npMean l₁ = npMean l₂ := by
    unfold npMean
    rw [h.sum_eq, hlen]
  have hvar : npVariance l₁ = npVariance l₂ := by
    unfold npVariance
    simp only [hmean, hlen, (h.map (fun x => (x - npMean l₂) ^ 2)).sum_eq]
  have hpct : ∀ q, percentile l₁ q = percentile l₂ q := by
    intro q
    simp only [percentile, hsort, hlen]
  have hmed : npMedian l₁ = npMedian l₂ := by
    simp only [npMedian, hsort, hlen]
  simp only [calculate_consistency_metrics, hlen, hmean, hvar, hmed, hpct]

/-- C6 witness: the invariance theorem applied to the permuted pair
`[1,2,3]` and `[3,1,2]`. -/
theorem C6_witness :
    List.Perm ([1, 2, 3] : List ℚ) [3, 1, 2] ∧
    calculate_consistency_metrics id ([1, 2, 3] : List ℚ) 2 =
      calculate_consistency_metrics id [3, 1, 2] 2 :=
  ⟨by decide, C6_perm_invariant id 2 [1, 2, 3] [3, 1, 2] (by decide)⟩

/-- C4: on a sufficient sample the record satisfies the claimed formulas:
`coef_variation = std/mean` guarded to `0` when `mean ≤ 0`,
`iqr_ratio = (p75 - p25)/median` guarded to `0` when `median ≤ 0`, and
`consistency_score = 0.5*mean + 0.3*floor - 0.2*coef_var*mean`. -/
theorem C4_consistency_formula (sq : ℚ → ℚ) (l : List ℚ) (m : ℕ)
    (h : m ≤ l.length) :
    (calculate_consistency_metrics sq l m).coef_variation =
      (if 0 < npMean l then sq (npVariance l) / npMean l else 0) ∧
    (calculate_consistency_metrics sq l m).iqr_ratio =
      (if 0 < npMedian l then (percentile l 75 - percentile l 25) / npMedian l else 0) ∧
    (calculate_consistency_metrics sq l m).consistency_score =
      0.5 * npMean l + 0.3 * percentile l 10 -
        0.2 * (calculate_consistency_metrics sq l m).coef_variation * npMean l := by
  have hnl : ¬ l.length < m := not_lt.mpr h
  simp only [calculate_consistency_metrics, if_neg hnl]
  refine ⟨trivial, trivial, ?_⟩
  ring

/-- C4 witness: the formula theorem applied to the ten-game sample
`[1, ..., 10]` with `min_games = 10`. -/
theorem C4_witness :
    (10 ≤ ([1, 2, 3, 4, 5, 6, 7, 8, 9, 10] : List ℚ).length) ∧
    ((calculate_consistency_metrics id ([1, 2, 3, 4, 5, 6, 7, 8, 9, 10] : List ℚ) 10).coef_variation =
      (if 0 < npMean ([1, 2, 3, 4, 5, 6, 7, 8, 9, 10] : List ℚ) then
        id (npVariance ([1, 2, 3, 4, 5, 6, 7, 8, 9, 10] : List ℚ)) /
          npMean ([1, 2, 3, 4, 5, 6, 7, 8, 9, 10] : List ℚ) else 0) ∧
    (calculate_consistency_metrics id ([1, 2, 3, 4, 5, 6, 7, 8, 9, 10] : List ℚ) 10).iqr_ratio =
      (if 0 < npMedian ([1, 2, 3, 4, 5, 6, 7, 8, 9, 10] : List ℚ) then
        (percentile ([1, 2, 3, 4, 5, 6, 7, 8, 9, 10] : List ℚ) 75 -
          percentile ([1, 2, 3, 4, 5, 6, 7, 8, 9, 10] : List ℚ) 25) /
          npMedian ([1, 2, 3, 4, 5, 6, 7, 8, 9, 10] : List ℚ) else 0) ∧
    (calculate_consistency_metrics id ([1, 2, 3, 4, 5, 6, 7, 8, 9, 10] : List ℚ) 10).consistency_score =
      0.5 * npMean ([1, 2, 3, 4, 5, 6, 7, 8, 9, 10] : List ℚ) +
        0.3 * percentile ([1, 2, 3, 4, 5, 6, 7, 8, 9, 10] : List ℚ) 10 -
        0.2 * (calculate_consistency_metrics id ([1, 2, 3, 4, 5, 6, 7, 8, 9, 10] : List ℚ) 10).coef_variation *
          npMean ([1, 2, 3, 4, 5, 6, 7, 8, 9, 10] : List ℚ)) :=
  ⟨by decide, C4_consistency_formula id [1, 2, 3, 4, 5, 6, 7, 8, 9, 10] 10 (by decide)⟩

end ClaimsC

/-- The sample variance is nonnegative: the numerator is a sum of squares
and the denominator is positive for lists of length at least two, while the
shorter cases evaluate to `0` outright (rational division by zero is zero). -/
lemma sampleVariance_nonneg (l : List ℚ) : 0 ≤ sampleVariance l := by
  match l with
  | [] => simp [sampleVariance, npMean]
  | [x] => simp [sampleVariance, npMean]
  | x :: y :: t =>
    apply div_nonneg
    · apply List.sum_nonneg
      intro z hz
      simp only [List.mem_map] at hz
      obtain ⟨w, _, rfl⟩ := hz
      positivity
    · have hlen : 2 ≤ ((x :: y :: t).length : ℚ) := by
        have : 2 ≤ (x :: y :: t).length := by simp
        exact_mod_cast this
      linarith

section ClaimsD

set_option maxHeartbeats 1600000 in
/-- C5: for every input — any player, any recent-games frame (including an
empty one), with or without a `seconds_played` column, with or without an
injury table — the injury risk score lies in `[0, 100]`, provided the
square-root oracle is nonnegative on nonnegative inputs (as `np.sqrt` is). -/
theorem C5_risk_bounded (sq : ℚ → ℚ) (injury_data : Option (List String))
    (player_name : String) (rg : RecentGames)
    (hsq : ∀ q : ℚ, 0 ≤ q → 0 ≤ sq q) :
    0 ≤ calculate_injury_risk_score sq injury_data player_name rg ∧
      calculate_injury_risk_score sq injury_data player_name rg ≤ 100 := by
  obtain ⟨n, secs⟩ := rg
  have hnn : ∀ cnt : ℕ, 0 ≤ min (30 : ℚ) ((cnt : ℚ) * 10) :=
    fun cnt => le_min (by norm_num) (by positivity)
  cases secs with
  | none =>
    cases injury_data with
    | none =>
      simp only [calculate_injury_risk_score]
      refine ⟨le_min (by norm_num) ?_, min_le_left _ _⟩
      split_ifs <;> norm_num
    | some inj =>
      simp only [calculate_injury_risk_score]
      refine ⟨le_min (by norm_num) ?_, min_le_left _ _⟩
      split_ifs <;>
        first
          | (norm_num; done)
          | linarith [hnn (List.filter (fun x => decide (x = player_name)) inj).length]
  | some sec =>
    have h20 : 0 < npMean (sec.map fun x => x / 60) →
        0 ≤ min (20 : ℚ)
          (sq (sampleVariance (sec.map fun x => x / 60)) /
            npMean (sec.map fun x => x / 60) * 50) :=
      fun hm => le_min (by norm_num)
        (mul_nonneg (div_nonneg (hsq _ (sampleVariance_nonneg _)) hm.le) (by norm_num))
    cases injury_data with
    | none =>
      simp only [calculate_injury_risk_score]
      refine ⟨le_min (by norm_num) ?_, min_le_left _ _⟩
      split_ifs <;>
        first
          | (norm_num; done)
          | linarith [h20 ‹0 < npMean (List.map (fun x => x / 60) sec)›]
    | some inj =>
      simp only [calculate_injury_risk_score]
      refine ⟨le_min (by norm_num) ?_, min_le_left _ _⟩
      split_ifs <;>
        first
          | (norm_num; done)
          | linarith [hnn (List.filter (fun x => decide (x = player_name)) inj).length]
          | linarith [h20 ‹0 < npMean (List.map (fun x => x / 60) sec)›]
          | linarith [h20 ‹0 < npMean (List.map (fun x => x / 60) sec)›,
              hnn (List.filter (fun x => decide (x = player_name)) inj).length]

/-- C5 witness: the bound theorem applied with the identity square-root
oracle to a player with zero games, no minutes column and no injury table. -/
theorem C5_witness :
    (∀ q : ℚ, 0 ≤ q → 0 ≤ id q) ∧
    (0 ≤ calculate_injury_risk_score id none "Player"
        { numRows := 0, seconds_played := none } ∧
      calculate_injury_risk_score id none "Player"
        { numRows := 0, seconds_played := none } ≤ 100) :=
  ⟨fun _ h => h,
    C5_risk_bounded id none "Player" { numRows := 0, seconds_played := none }
      (fun _ h => h)⟩

end ClaimsD

end FantasyFE
